import Mathlib

/-!
Shallow embedding of the `chi-httpslog` structured HTTP logging middleware
(`httpslog` Go package) and proofs about its behaviour.

The embedding models:
 * the severity classifier `statusLevel` / `statusLabel`,
 * the header redactor `headerLogField` (Go maps are modelled as
   association lists; a Go map assignment is `updateAssoc`),
 * the option defaulting and in-place `SkipHeaders` lowering of `Configure`
   (Go slice aliasing is modelled with an explicit slice store),
 * the per-request logger entry (`NewLogEntry`, `Write`, `Panic`) and the
   middleware driver `Handler` together with the deferred finalizer and the
   surrounding recoverer, as one pure function `handlerRun` from the
   request, the configuration and the downstream handler's observable
   behaviour to the emitted log records and bookkeeping facts.

Machine integers are modelled as `Int` (Go `int` overflow plays no role at
HTTP status-code magnitudes); `strings.ToLower` is modelled character-wise
on the string's character data (`lowerStr`), matching its ASCII behaviour.
A Go panic value `v` is modelled by the string `fmt.Sprintf("%+v", v)`,
which is all the logging code ever observes of it.
-/

namespace Httpslog

/-- Log severities of the structured logging sink (`slog` levels). -/
inductive Severity where
  | debug
  | info
  | warn
  | error
deriving DecidableEq, Repr

/-- `strings.ToLower`, modelled character-wise (ASCII case folding). -/
def lowerStr (s : String) : String := ⟨s.data.map Char.toLower⟩

/-- Source `statusLevel`: maps an HTTP status code to a log severity.
Mirrors the Go `switch` branch by branch, in order. -/
def statusLevel (status : Int) : Severity :=
  if status ≤ 0 then .warn
  else if status < 400 then .info
  else if 400 ≤ status ∧ status < 500 then .warn
  else if 500 ≤ status then .error
  else .info

/-- Source `statusLabel`: maps an HTTP status code to a human label.
Mirrors the Go `switch` branch by branch, in order. -/
def statusLabel (status : Int) : String :=
  if 100 ≤ status ∧ status < 300 then "OK"
  else if 300 ≤ status ∧ status < 400 then "Redirect"
  else if 400 ≤ status ∧ status < 500 then "Client Error"
  else if 500 ≤ status then "Server Error"
  else "Unknown"

/-- An `http.Header`: header names with their value lists. -/
abbrev Header := List (String × List String)

/-- Assignment `m[k] = v` on a Go `map[string]string`, modelled on an
association list: replace the value at an existing key, else append. -/
def updateAssoc (m : List (String × String)) (k v : String) :
    List (String × String) :=
  if m.any (fun p => p.1 == k) then
    m.map (fun p => if p.1 == k then (k, v) else p)
  else m ++ [(k, v)]

/-- The two overwrite steps of `headerLogField` that follow value
assignment: the built-in sensitive names, then the configured
`SkipHeaders` scan (its `break` makes it a membership test). -/
def maskOverride (skips : List String) (m : List (String × String))
    (k : String) : List (String × String) :=
  let m1 := if k == "authorization" || k == "cookie" || k == "set-cookie" then
    updateAssoc m k "***" else m
  if skips.contains k then updateAssoc m1 k "***" else m1

/-- One iteration of the `headerLogField` loop: lower-case the name, skip
empty value lists, assign the single value or the joined display string,
then apply the masking overwrites. -/
def headerStep (skips : List String) (m : List (String × String))
    (kv : String × List String) : List (String × String) :=
  let k := lowerStr kv.1
  match kv.2 with
  | [] => m
  | [v] => maskOverride skips (updateAssoc m k v) k
  | vs => maskOverride skips
      (updateAssoc m k ("[" ++ String.intercalate "], [" vs ++ "]")) k

/-- Source `headerLogField`: builds the redacted header mapping. The Go
`range` over the header map is modelled as a left fold over the
association-list representation. -/
def headerLogField (skips : List String) (header : Header) :
    List (String × String) :=
  header.foldl (headerStep skips) []

/-! ## Log records and the per-request logger entry -/

/-- A structured log field value: a plain string, a flat string map
(redacted headers), or a nested field map (the request field set). -/
inductive LogValue where
  | str (s : String)
  | strMap (m : List (String × String))
  | nested (m : List (String × LogValue))

/-- A `slog` logger handle modelled by its accumulated `With` fields. -/
abbrev LoggerModel := List (String × LogValue)

/-- The request metadata the middleware reads from `*http.Request`. -/
structure Request where
  method : String
  path : String
  host : String
  requestURI : String
  tls : Bool
  remoteAddr : String
  proto : String
  reqID : String
  header : Header

/-- Source `requestLogFields`: the request field set (URL reconstructed
from scheme, host and URI; method; path; remote address; protocol;
correlation id when present; plus scheme and redacted headers when not
concise). -/
def requestLogFields (skipHeaders : List String) (r : Request)
    (concise : Bool) : List (String × LogValue) :=
  let scheme := if r.tls then "https" else "http"
  let requestURL := scheme ++ "://" ++ r.host ++ r.requestURI
  let requestFields : List (String × LogValue) :=
    [("requestURL", .str requestURL),
     ("requestMethod", .str r.method),
     ("requestPath", .str r.path),
     ("remoteIP", .str r.remoteAddr),
     ("proto", .str r.proto)]
  let requestFields := if r.reqID ≠ "" then
    requestFields ++ [("requestID", .str r.reqID)] else requestFields
  if concise then requestFields
  else
    let requestFields := requestFields ++ [("scheme", .str scheme)]
    if r.header ≠ [] then
      requestFields ++ [("header", .strMap (headerLogField skipHeaders r.header))]
    else requestFields

/-- Source `RequestLoggerEntry`: the per-request logging context. -/
structure RequestLoggerEntry where
  Logger : LoggerModel
  msg : String

/-- The `httpResponse` field set built by `Write`: `status`, `bytes` and
`elapsed` are always present; `body` and `header` only in the stated
cases (`none` models the key being absent from the Go map). `elapsedNs`
holds the elapsed nanoseconds (the Go code logs them divided by 10^6). -/
structure ResponseLog where
  status : Int
  bytes : Nat
  elapsedNs : Nat
  body : Option String
  header : Option (List (String × String))

/-- One emitted structured log record: severity, message, the logger's
accumulated fields, and the `httpResponse` field set if attached. -/
structure LogRecord where
  level : Severity
  msg : String
  fields : LoggerModel
  httpResponse : Option ResponseLog

/-- Source `requestLogger.NewLogEntry`: builds the entry (its logger carries
the concise request field set) and emits the start record only when not
concise; the start record carries the verbose request field set in a second
`httpRequest` field, exactly as the chained `With` calls do. -/
def NewLogEntry (skipHeaders : List String) (concise : Bool)
    (base : LoggerModel) (r : Request) :
    RequestLoggerEntry × List LogRecord :=
  let msg := "Request: " ++ r.method ++ " " ++ r.path
  let entry : RequestLoggerEntry :=
    { Logger := base ++ [("httpRequest", .nested (requestLogFields skipHeaders r true))],
      msg := "" }
  (entry,
    if ¬concise then
      [{ level := .info, msg := msg,
         fields := entry.Logger ++
           [("httpRequest", .nested (requestLogFields skipHeaders r concise))],
         httpResponse := none }]
    else [])

/-- Source `RequestLoggerEntry.Write`: builds the end record. Returns the
list of emitted records (empty or a singleton): the `case slog.LevelInfo`
branch of the Go `switch` is empty, so an info-classified record is
dropped; the `default` branch (unreachable for `statusLevel`'s range)
emits at info. -/
def RequestLoggerEntry.Write (l : RequestLoggerEntry)
    (skipHeaders : List String) (concise : Bool) (status : Int) (bytes : Nat)
    (header : Header) (elapsedNs : Nat) (extra : Option String) :
    List LogRecord :=
  let msg := "Response: " ++ toString status ++ " " ++ statusLabel status
  let msg := if l.msg ≠ "" then msg ++ " - " ++ l.msg else msg
  let responseLog : ResponseLog :=
    { status := status, bytes := bytes, elapsedNs := elapsedNs,
      body := if ¬concise ∧ status ≥ 400 then some ((extra.getD "")) else none,
      header := if ¬concise ∧ header ≠ [] then
        some (headerLogField skipHeaders header) else none }
  match statusLevel status with
  | .error => [{ level := .error, msg := msg, fields := l.Logger,
                 httpResponse := some responseLog }]
  | .warn => [{ level := .warn, msg := msg, fields := l.Logger,
                httpResponse := some responseLog }]
  | .info => []
  | .debug => [{ level := .info, msg := msg, fields := l.Logger,
                 httpResponse := some responseLog }]

/-- Source `RequestLoggerEntry.Panic`: attaches the stack trace and the
formatted panic value to the logger and stores the formatted panic value
as the short message. (It also dumps the pretty stack to standard error;
`handlerRun` records that flag.) -/
def RequestLoggerEntry.Panic (l : RequestLoggerEntry) (v : String)
    (stack : String) : RequestLoggerEntry :=
  { Logger := l.Logger ++ [("stacktrace", .str stack), ("panic", .str v)],
    msg := v }

/-! ## The middleware driver -/

/-- The observable behaviour of the downstream handler for one exchange:
the status it records on the response wrapper (`none` if it never writes a
header or body), the bytes written, the response headers, the contents of
the 512-byte tee buffer at finalization time, and — when it panics with a
value other than `http.ErrAbortHandler` — the `%+v`-formatted panic value
and the captured stack trace text. -/
structure Downstream where
  statusWritten : Option Int
  bytesWritten : Nat
  respHeader : Header
  bodySnippet : String
  panics : Option String
  stack : String

/-- The wrapper status observed by the deferred finalizer: the recorded
status; `0` if nothing was ever written (chi's wrap writer default); on the
panic path the recoverer's `WriteHeader(500)` fills it when still unset. -/
def finalStatus (down : Downstream) : Int :=
  match down.panics with
  | none => down.statusWritten.getD 0
  | some _ => down.statusWritten.getD 500

/-- Everything observable about one pass of the middleware `Handler`
(plus the surrounding recoverer) on one request. -/
structure RunResult where
  startRecords : List LogRecord
  endRecords : List LogRecord
  entryCreated : Bool
  wrapped : Bool
  entryInContext : Bool
  writeCalls : Nat
  panicCalls : Nat
  stderrDump : Bool
  downstreamCalled : Bool
  finalEntry : Option RequestLoggerEntry

/-- Source `Handler` (with the deferred finalizer and the recoverer made
explicit): skip-listed paths bypass everything; otherwise the entry is
created (emitting the start record when not concise), the response writer
is wrapped and teed, the downstream handler runs with the entry in its
context, a panic is intercepted by the recoverer which invokes the
entry's `Panic` hook and fills in status 500 when none was written, and
the deferred `Write` finalization then runs unconditionally, reading the
tee buffer only when the final status is at least 400. -/
def handlerRun (skipHeaders : List String) (concise : Bool)
    (base : LoggerModel) (skipPaths : List String) (r : Request)
    (down : Downstream) (elapsedNs : Nat) : RunResult :=
  if skipPaths.contains r.path then
    { startRecords := [], endRecords := [], entryCreated := false,
      wrapped := false, entryInContext := false, writeCalls := 0,
      panicCalls := 0, stderrDump := false, downstreamCalled := true,
      finalEntry := none }
  else
    let ers := NewLogEntry skipHeaders concise base r
    let entry1 := match down.panics with
      | none => ers.1
      | some v => ers.1.Panic v down.stack
    let status := finalStatus down
    let extra := if status ≥ 400 then some down.bodySnippet else none
    let endRecs := entry1.Write skipHeaders concise status down.bytesWritten
      down.respHeader elapsedNs extra
    { startRecords := ers.2, endRecords := endRecs, entryCreated := true,
      wrapped := true, entryInContext := true, writeCalls := 1,
      panicCalls := if down.panics.isSome then 1 else 0,
      stderrDump := down.panics.isSome, downstreamCalled := true,
      finalEntry := some entry1 }

/-! ## Context lookup -/

/-- What `ctx.Value(middleware.LogEntryCtxKey)` can give back: a typed
`*RequestLoggerEntry` (possibly nil, the `Option` inside), or a value of
some other type. An absent value is the outer `Option`'s `none`. -/
inductive ContextValue where
  | loggerEntry (e : Option RequestLoggerEntry)
  | otherValue

/-- A logging handle as returned by `LogEntry`: the process-wide default
logger, or the entry's accumulated logger. -/
inductive LoggerHandle where
  | defaultLogger
  | entryLogger (fields : LoggerModel)

/-- Source `LogEntry`: type-asserts the context value and falls back to
`slog.Default()` when the assertion fails or the entry is nil. -/
def LogEntry (ctxVal : Option ContextValue) : LoggerHandle :=
  match ctxVal with
  | some (.loggerEntry (some e)) => .entryLogger e.Logger
  | _ => .defaultLogger

/-! ## Configuration -/

/-- Go's `time.RFC3339Nano` layout string. -/
def rfc3339Nano : String := "2006-01-02T15:04:05.999999999Z07:00"

/-- The `Options` structure. `SkipHeaders` is a Go slice: a reference into
a slice store (`SliceStore`), so that in-place mutation and aliasing are
observable. -/
structure OptionsR where
  LogLevel : String
  LevelFieldName : String
  Concise : Bool
  Tags : List (String × String)
  SkipHeaders : Nat
  TimeFieldFormat : String
  TimeFieldName : String

/-- The heap of string-slice backing arrays, indexed by reference. -/
abbrev SliceStore := Nat → List String

/-- Source `Configure`: defaults the four string fields, lower-cases every
entry of the `SkipHeaders` slice in place (a write through the shared
backing array), installs the resulting options as the process-wide
`DefaultOptions` (the returned `OptionsR`), and re-creates the default
sink at the parsed minimum level (the returned `Severity`). -/
def Configure (store : SliceStore) (opts : OptionsR) :
    SliceStore × OptionsR × Severity :=
  let opts := if opts.LogLevel = "" then { opts with LogLevel := "info" } else opts
  let opts := if opts.LevelFieldName = "" then
    { opts with LevelFieldName := "level" } else opts
  let opts := if opts.TimeFieldFormat = "" then
    { opts with TimeFieldFormat := rfc3339Nano } else opts
  let opts := if opts.TimeFieldName = "" then
    { opts with TimeFieldName := "timestamp" } else opts
  let store' : SliceStore := fun i =>
    if i = opts.SkipHeaders then (store i).map lowerStr else store i
  let logLevel : Severity :=
    match lowerStr opts.LogLevel with
    | "debug" => .debug
    | "info" => .info
    | "warn" => .warn
    | "error" => .error
    | _ => .info
  (store', opts, logLevel)

/-! ## Concrete fixtures used by witnesses and counterexamples -/

/-- A minimal GET request to path `p`, with no headers. -/
def sampleReq (p : String) : Request :=
  { method := "GET", path := p, host := "h", requestURI := p, tls := false,
    remoteAddr := "1.2.3.4:5", proto := "HTTP/1.1", reqID := "", header := [] }

/-- A downstream behaviour writing status `st` and `b` bytes, panicking
with formatted value `pan` when given. -/
def sampleDown (st : Option Int) (b : Nat) (pan : Option String) : Downstream :=
  { statusWritten := st, bytesWritten := b, respHeader := [],
    bodySnippet := "", panics := pan, stack := "trace" }

/-! ## Theorems -/

/-- C3: the status classifier is total (it is a Lean function) and satisfies
the exact boundary table: `s ≤ 0` is warn with label "Unknown"; `0 < s < 400`
is info, labelled "OK" on `[100,300)` and "Redirect" on `[300,400)`;
`[400,500)` is warn with "Client Error"; `s ≥ 500` is error with
"Server Error"; every status below 100 (outside the label bands) gets label
"Unknown". -/
theorem statusLevel_statusLabel_boundary_table (s : Int) :
    (s ≤ 0 → statusLevel s = .warn ∧ statusLabel s = "Unknown") ∧
    (0 < s → s < 400 → statusLevel s = .info) ∧
    (100 ≤ s → s < 300 → statusLabel s = "OK") ∧
    (300 ≤ s → s < 400 → statusLabel s = "Redirect") ∧
    (400 ≤ s → s < 500 → statusLevel s = .warn ∧ statusLabel s = "Client Error") ∧
    (500 ≤ s → statusLevel s = .error ∧ statusLabel s = "Server Error") ∧
    (s < 100 → statusLabel s = "Unknown") := by
  unfold statusLevel statusLabel
  refine ⟨fun h => ⟨?_, ?_⟩, fun h1 h2 => ?_, fun h1 h2 => ?_, fun h1 h2 => ?_,
    fun h1 h2 => ⟨?_, ?_⟩, fun h => ⟨?_, ?_⟩, fun h => ?_⟩ <;>
    split_ifs <;> first | rfl | omega

/-- Witness for C3 at concrete status codes. -/
theorem statusLevel_statusLabel_boundary_table_witness :
    statusLevel (-1) = .warn ∧ statusLabel (-1) = "Unknown" :=
  (statusLevel_statusLabel_boundary_table (-1)).1 (by decide)

theorem updateAssoc_any_self (m : List (String × String)) (k v : String) :
    (updateAssoc m k v).any (fun p => p.1 == k) = true := by
  unfold updateAssoc
  split
  · next h =>
    rw [List.any_eq_true] at h ⊢
    obtain ⟨p, hp, hk⟩ := h
    exact ⟨(k, v), List.mem_map.2 ⟨p, hp, by simp [hk]⟩, by simp⟩
  · simp

/-- Two successive assignments to the same key collapse to the second. -/
theorem updateAssoc_updateAssoc (m : List (String × String)) (k v w : String) :
    updateAssoc (updateAssoc m k v) k w = updateAssoc m k w := by
  by_cases h : m.any (fun p => p.1 == k) = true
  · have h1 : updateAssoc m k v =
        m.map (fun p => if p.1 == k then (k, v) else p) := by
      unfold updateAssoc; rw [if_pos h]
    have h2 : (updateAssoc m k v).any (fun p => p.1 == k) = true :=
      updateAssoc_any_self m k v
    rw [h1] at h2 ⊢
    unfold updateAssoc
    rw [if_pos h2, if_pos h, List.map_map]
    exact List.map_congr_left fun p _ => by
      by_cases hp : (p.1 == k) = true <;> simp [Function.comp, hp]
  · have hall : ∀ p ∈ m, (p.1 == k) = false := by
      intro p hp
      by_contra hc
      exact h (List.any_eq_true.2 ⟨p, hp, by simpa using hc⟩)
    have h1 : updateAssoc m k v = m ++ [(k, v)] := by
      unfold updateAssoc; rw [if_neg h]
    rw [h1]
    have h2 : ((m ++ [(k, v)]).any (fun p => p.1 == k)) = true := by simp
    unfold updateAssoc
    rw [if_pos h2, if_neg h, List.map_append]
    have hm : m.map (fun p => if p.1 == k then (k, w) else p) = m.map id :=
      List.map_congr_left fun p hp => by simp [hall p hp]
    rw [hm, List.map_id]
    simp

/-- The two overwrite steps amount to one conditional masking with `***`. -/
theorem maskOverride_eq (skips : List String) (m : List (String × String))
    (k : String) :
    maskOverride skips m k =
      if k = "authorization" ∨ k = "cookie" ∨ k = "set-cookie" ∨ k ∈ skips then
        updateAssoc m k "***"
      else m := by
  have hcs : (skips.contains k = true) ↔ k ∈ skips := by
    simp [List.contains]
  have hcb : ((k == "authorization" || k == "cookie" || k == "set-cookie") = true) ↔
      (k = "authorization" ∨ k = "cookie" ∨ k = "set-cookie") := by
    simp
    tauto
  simp only [maskOverride]
  by_cases hb : k = "authorization" ∨ k = "cookie" ∨ k = "set-cookie" <;>
    by_cases hs : k ∈ skips
  · rw [if_pos (hcb.2 hb), if_pos (hcs.2 hs), updateAssoc_updateAssoc,
      if_pos (by tauto)]
  · rw [if_pos (hcb.2 hb), if_neg (fun hc => hs (hcs.1 hc)), if_pos (by tauto)]
  · rw [if_neg (fun hc => hb (hcb.1 hc)), if_pos (hcs.2 hs), if_pos (by tauto)]
  · rw [if_neg (fun hc => hb (hcb.1 hc)), if_neg (fun hc => hs (hcs.1 hc)),
      if_neg (by tauto)]

/-- C4: processing one further header: the name is lower-cased; zero values
are skipped; a single value is stored verbatim; multiple values are joined
into one bracketed, comma-separated display string; and the stored value is
overwritten with "***" exactly when the lower-cased name is `authorization`,
`cookie`, `set-cookie` (regardless of the configured list) or is in the
configured redaction list. -/
theorem headerLogField_entry_spec (skips : List String) (h : Header)
    (name : String) (vs : List String) :
    headerLogField skips (h ++ [(name, vs)]) =
      if vs = [] then headerLogField skips h
      else
        updateAssoc (headerLogField skips h) (lowerStr name)
          (if lowerStr name = "authorization" ∨ lowerStr name = "cookie" ∨
              lowerStr name = "set-cookie" ∨ lowerStr name ∈ skips then "***"
           else match vs with
             | [v] => v
             | _ => "[" ++ String.intercalate "], [" vs ++ "]") := by
  unfold headerLogField
  rw [List.foldl_append]
  rcases vs with _ | ⟨v, _ | ⟨v2, rest⟩⟩
  · simp [headerStep]
  · simp only [List.foldl_cons, List.foldl_nil, headerStep]
    rw [maskOverride_eq, if_neg (List.cons_ne_nil v [])]
    by_cases hm : lowerStr name = "authorization" ∨ lowerStr name = "cookie" ∨
        lowerStr name = "set-cookie" ∨ lowerStr name ∈ skips
    · rw [if_pos hm, if_pos hm, updateAssoc_updateAssoc]
    · rw [if_neg hm, if_neg hm]
  · simp only [List.foldl_cons, List.foldl_nil, headerStep]
    rw [maskOverride_eq, if_neg (List.cons_ne_nil v (v2 :: rest))]
    by_cases hm : lowerStr name = "authorization" ∨ lowerStr name = "cookie" ∨
        lowerStr name = "set-cookie" ∨ lowerStr name ∈ skips
    · rw [if_pos hm, if_pos hm, updateAssoc_updateAssoc]
    · rw [if_neg hm, if_neg hm]

theorem char_toNat_ofNat {n : Nat} (h : n < 55296) :
    (Char.ofNat n).toNat = n := by
  rw [Char.ofNat, dif_pos (Or.inl h)]
  rfl

theorem char_toLower_toLower (c : Char) : c.toLower.toLower = c.toLower := by
  simp only [Char.toLower]
  by_cases h : c.toNat ≥ 65 ∧ c.toNat ≤ 90
  · rw [if_pos h]
    have h2 : (Char.ofNat (c.toNat + 32)).toNat = c.toNat + 32 :=
      char_toNat_ofNat (by omega)
    rw [if_neg (by omega)]
  · rw [if_neg h, if_neg h]

theorem lowerStr_idem (s : String) : lowerStr (lowerStr s) = lowerStr s := by
  simp only [lowerStr, List.map_map]
  congr 1
  exact List.map_congr_left fun c _ => char_toLower_toLower c

theorem mem_updateAssoc {m : List (String × String)} {k v : String}
    {p : String × String} (hp : p ∈ updateAssoc m k v) :
    p = (k, v) ∨ (p.1 ≠ k ∧ p ∈ m) := by
  unfold updateAssoc at hp
  split at hp
  · obtain ⟨q, hq, he⟩ := List.mem_map.1 hp
    by_cases hk : (q.1 == k) = true
    · rw [if_pos hk] at he
      exact Or.inl he.symm
    · rw [if_neg hk] at he
      refine Or.inr ⟨?_, he ▸ hq⟩
      rw [← he]
      simpa using hk
  · next hany =>
    rcases List.mem_append.1 hp with h | h
    · refine Or.inr ⟨fun hk => ?_, h⟩
      exact hany (List.any_eq_true.2 ⟨p, h, by simp [hk]⟩)
    · exact Or.inl (by simpa using h)

/-- An assignment that rewrites an existing key with the value every entry
at that key already holds is a no-op. -/
theorem updateAssoc_self {m : List (String × String)} {k v : String}
    (hpres : m.any (fun p => p.1 == k) = true)
    (hv : ∀ p ∈ m, p.1 = k → p.2 = v) : updateAssoc m k v = m := by
  unfold updateAssoc
  rw [if_pos hpres]
  have : m.map (fun p => if p.1 == k then (k, v) else p) = m.map id :=
    List.map_congr_left fun p hp => by
      by_cases hk : (p.1 == k) = true
      · have h1 : p.1 = k := by simpa using hk
        have h2 : p.2 = v := hv p hp h1
        rw [if_pos hk, id]
        exact Prod.ext h1.symm h2.symm
      · rw [if_neg hk, id]
  rw [this, List.map_id]

theorem updateAssoc_keys_nodup {m : List (String × String)} {k v : String}
    (h : (m.map Prod.fst).Nodup) :
    ((updateAssoc m k v).map Prod.fst).Nodup := by
  unfold updateAssoc
  split
  · have heq : (m.map (fun p => if p.1 == k then (k, v) else p)).map Prod.fst =
        m.map Prod.fst := by
      rw [List.map_map]
      exact List.map_congr_left fun p _ => by
        by_cases hk : (p.1 == k) = true
        · simp only [Function.comp, if_pos hk]
          exact (eq_of_beq hk).symm
        · simp [Function.comp, hk]
    rw [heq]
    exact h
  · next hany =>
    rw [List.map_append, List.nodup_append]
    refine ⟨h, by simp, ?_⟩
    intro a ha hb
    simp only [List.map_cons, List.map_nil, List.mem_singleton] at hb
    subst hb
    obtain ⟨p, hp, hpk⟩ := List.mem_map.1 ha
    exact hany (List.any_eq_true.2 ⟨p, hp, by simp [hpk]⟩)

theorem any_key_eq_false {m : List (String × String)} {k : String}
    (h : k ∉ m.map Prod.fst) : m.any (fun p => p.1 == k) = false := by
  rw [List.any_eq_false]
  intro p hp
  simp only [beq_iff_eq]
  intro hk
  exact h (List.mem_map.2 ⟨p, hp, hk⟩)

/-- Membership through one mask-and-assign step. -/
theorem mem_maskStep {skips : List String} {m : List (String × String)}
    {k val : String} {p : String × String}
    (hp : p ∈ maskOverride skips (updateAssoc m k val) k) :
    p.1 = k ∨ p ∈ m := by
  rw [maskOverride_eq] at hp
  split at hp
  · rcases mem_updateAssoc hp with he | ⟨_, hm⟩
    · exact Or.inl (by rw [he])
    · rcases mem_updateAssoc hm with he | ⟨_, hm2⟩
      · exact Or.inl (by rw [he])
      · exact Or.inr hm2
  · rcases mem_updateAssoc hp with he | ⟨_, hm⟩
    · exact Or.inl (by rw [he])
    · exact Or.inr hm

/-- After one mask-and-assign step, every entry at a name that the policy
masks holds the mask token (provided that already held of the previous
mapping). -/
theorem mem_maskStep_masked {skips : List String} {m : List (String × String)}
    {k val : String} {p : String × String}
    (hp : p ∈ maskOverride skips (updateAssoc m k val) k)
    (hmask : p.1 = "authorization" ∨ p.1 = "cookie" ∨ p.1 = "set-cookie" ∨
      p.1 ∈ skips)
    (hm : ∀ q ∈ m, (q.1 = "authorization" ∨ q.1 = "cookie" ∨
      q.1 = "set-cookie" ∨ q.1 ∈ skips) → q.2 = "***") : p.2 = "***" := by
  rw [maskOverride_eq] at hp
  by_cases hc : k = "authorization" ∨ k = "cookie" ∨ k = "set-cookie" ∨
      k ∈ skips
  · rw [if_pos hc] at hp
    rcases mem_updateAssoc hp with he | ⟨hne, hmem⟩
    · rw [he]
    · rcases mem_updateAssoc hmem with he | ⟨_, hmem2⟩
      · exact absurd (by rw [he]) hne
      · exact hm p hmem2 hmask
  · rw [if_neg hc] at hp
    rcases mem_updateAssoc hp with he | ⟨_, hmem⟩
    · rw [he] at hmask
      exact absurd hmask hc
    · exact hm p hmem hmask

/-- Every key of the redacted mapping is already lower-case. -/
theorem headerLogField_keys_lower (skips : List String) (h : Header) :
    ∀ p ∈ headerLogField skips h, lowerStr p.1 = p.1 := by
  suffices H : ∀ (hs : Header) (acc : List (String × String)),
      (∀ p ∈ acc, lowerStr p.1 = p.1) →
      ∀ p ∈ hs.foldl (headerStep skips) acc, lowerStr p.1 = p.1 from
    H h [] (by simp)
  intro hs
  induction hs with
  | nil =>
    intro acc hacc p hp
    exact hacc p (by simpa using hp)
  | cons kv t ih =>
    intro acc hacc p hp
    rw [List.foldl_cons] at hp
    refine ih _ ?_ p hp
    intro q hq
    rcases kv with ⟨name, vs⟩
    rcases vs with _ | ⟨v, _ | ⟨v2, rest⟩⟩
    · simp only [headerStep] at hq
      exact hacc q hq
    · simp only [headerStep] at hq
      rcases mem_maskStep hq with hk | hmem
      · rw [hk]
        exact lowerStr_idem name
      · exact hacc q hmem
    · simp only [headerStep] at hq
      rcases mem_maskStep hq with hk | hmem
      · rw [hk]
        exact lowerStr_idem name
      · exact hacc q hmem

/-- Every entry of the redacted mapping whose name the policy masks holds
the mask token. -/
theorem headerLogField_masked (skips : List String) (h : Header) :
    ∀ p ∈ headerLogField skips h,
      (p.1 = "authorization" ∨ p.1 = "cookie" ∨ p.1 = "set-cookie" ∨
        p.1 ∈ skips) → p.2 = "***" := by
  suffices H : ∀ (hs : Header) (acc : List (String × String)),
      (∀ p ∈ acc, (p.1 = "authorization" ∨ p.1 = "cookie" ∨
        p.1 = "set-cookie" ∨ p.1 ∈ skips) → p.2 = "***") →
      ∀ p ∈ hs.foldl (headerStep skips) acc,
        (p.1 = "authorization" ∨ p.1 = "cookie" ∨ p.1 = "set-cookie" ∨
          p.1 ∈ skips) → p.2 = "***" from
    H h [] (by simp)
  intro hs
  induction hs with
  | nil =>
    intro acc hacc p hp
    exact hacc p (by simpa using hp)
  | cons kv t ih =>
    intro acc hacc p hp
    rw [List.foldl_cons] at hp
    refine ih _ ?_ p hp
    intro q hq hqmask
    rcases kv with ⟨name, vs⟩
    rcases vs with _ | ⟨v, _ | ⟨v2, rest⟩⟩
    · simp only [headerStep] at hq
      exact hacc q hq hqmask
    · simp only [headerStep] at hq
      exact mem_maskStep_masked hq hqmask hacc
    · simp only [headerStep] at hq
      exact mem_maskStep_masked hq hqmask hacc

/-- The redacted mapping has no duplicate keys (it models a Go map). -/
theorem headerLogField_keys_nodup (skips : List String) (h : Header) :
    ((headerLogField skips h).map Prod.fst).Nodup := by
  suffices H : ∀ (hs : Header) (acc : List (String × String)),
      (acc.map Prod.fst).Nodup →
      ((hs.foldl (headerStep skips) acc).map Prod.fst).Nodup from
    H h [] (by simp)
  intro hs
  induction hs with
  | nil =>
    intro acc hacc
    simpa using hacc
  | cons kv t ih =>
    intro acc hacc
    rw [List.foldl_cons]
    refine ih _ ?_
    rcases kv with ⟨name, vs⟩
    rcases vs with _ | ⟨v, _ | ⟨v2, rest⟩⟩ <;> simp only [headerStep]
    · exact hacc
    · rw [maskOverride_eq]
      split
      · exact updateAssoc_keys_nodup (updateAssoc_keys_nodup hacc)
      · exact updateAssoc_keys_nodup hacc
    · rw [maskOverride_eq]
      split
      · exact updateAssoc_keys_nodup (updateAssoc_keys_nodup hacc)
      · exact updateAssoc_keys_nodup hacc

/-- Re-running the redaction loop over an already-redacted mapping (each
entry re-read as a single-valued header) appends it unchanged. -/
theorem foldl_headerStep_singletons (skips : List String) :
    ∀ (m acc : List (String × String)),
      (∀ p ∈ m, lowerStr p.1 = p.1) →
      (∀ p ∈ m, (p.1 = "authorization" ∨ p.1 = "cookie" ∨
        p.1 = "set-cookie" ∨ p.1 ∈ skips) → p.2 = "***") →
      (m.map Prod.fst).Nodup →
      (∀ p ∈ m, p.1 ∉ acc.map Prod.fst) →
      (m.map (fun p => (p.1, [p.2]))).foldl (headerStep skips) acc = acc ++ m := by
  intro m
  induction m with
  | nil =>
    intro acc _ _ _ _
    simp
  | cons q t ih =>
    intro acc hlow hmask hnodup hdisj
    rcases q with ⟨k, v⟩
    rw [List.map_cons, List.foldl_cons]
    have hk : lowerStr k = k := hlow (k, v) (by simp)
    have hkacc : k ∉ acc.map Prod.fst := hdisj (k, v) (by simp)
    have hupd : updateAssoc acc k v = acc ++ [(k, v)] := by
      unfold updateAssoc
      rw [if_neg (by rw [any_key_eq_false hkacc]; simp)]
    have hnodup' : k ∉ t.map Prod.fst ∧ (t.map Prod.fst).Nodup := by
      rw [List.map_cons, List.nodup_cons] at hnodup
      exact hnodup
    have hstep : headerStep skips acc (k, [v]) = acc ++ [(k, v)] := by
      simp only [headerStep]
      rw [hk, hupd, maskOverride_eq]
      split
      · next hmsk =>
        have hv : v = "***" := hmask (k, v) (by simp) hmsk
        refine updateAssoc_self (by simp) ?_
        intro p hp hpk
        rcases List.mem_append.1 hp with hin | hin
        · exact absurd (List.mem_map.2 ⟨p, hin, hpk⟩) hkacc
        · rw [List.mem_singleton] at hin
          rw [hin, hv]
      · rfl
    rw [hstep]
    have hsplit : acc ++ (k, v) :: t = (acc ++ [(k, v)]) ++ t := by simp
    rw [hsplit]
    refine ih (acc ++ [(k, v)]) (fun p hp => hlow p (by simp [hp]))
      (fun p hp hm => hmask p (by simp [hp]) hm) hnodup'.2 ?_
    intro p hp
    rw [List.map_append, List.mem_append]
    rintro (hin | hin)
    · exact hdisj p (by simp [hp]) hin
    · simp only [List.map_cons, List.map_nil, List.mem_singleton] at hin
      exact hnodup'.1 (hin ▸ List.mem_map.2 ⟨p, hp, rfl⟩)

/-- C5: redaction is idempotent — feeding the redacted mapping back through
the redactor (each entry as a single-valued header) returns the same
mapping; in particular already-masked values stay the same masked values. -/
theorem headerLogField_idempotent (skips : List String) (h : Header) :
    headerLogField skips
      ((headerLogField skips h).map (fun p => (p.1, [p.2]))) =
      headerLogField skips h := by
  have H := foldl_headerStep_singletons skips (headerLogField skips h) []
    (headerLogField_keys_lower skips h) (headerLogField_masked skips h)
    (headerLogField_keys_nodup skips h) (by simp)
  simpa [headerLogField] using H

/-- `statusLevel` never produces `.debug`: the `default` branch of the
`Write` switch is unreachable. -/
theorem statusLevel_cases (status : Int) :
    statusLevel status = .info ∨ statusLevel status = .warn ∨
      statusLevel status = .error := by
  unfold statusLevel
  split_ifs <;> simp

theorem Write_length_le_one (l : RequestLoggerEntry) (skips : List String)
    (concise : Bool) (status : Int) (bytes : Nat) (header : Header)
    (elapsedNs : Nat) (extra : Option String) :
    (l.Write skips concise status bytes header elapsedNs extra).length ≤ 1 := by
  unfold RequestLoggerEntry.Write
  rcases h : statusLevel status <;> simp [h]

theorem Write_length_of_not_info (l : RequestLoggerEntry)
    (skips : List String) (concise : Bool) (status : Int) (bytes : Nat)
    (header : Header) (elapsedNs : Nat) (extra : Option String)
    (h : statusLevel status ≠ .info) :
    (l.Write skips concise status bytes header elapsedNs extra).length = 1 := by
  unfold RequestLoggerEntry.Write
  rcases hsl : statusLevel status <;> simp [hsl]
  exact h hsl

/-- When the entry carries a non-empty short message, every record `Write`
emits has the panic-annotated message. -/
theorem Write_msg_of_msg_ne (l : RequestLoggerEntry) (skips : List String)
    (concise : Bool) (status : Int) (bytes : Nat) (header : Header)
    (elapsedNs : Nat) (extra : Option String) (h : l.msg ≠ "") :
    ∀ rec ∈ l.Write skips concise status bytes header elapsedNs extra,
      rec.msg = "Response: " ++ toString status ++ " " ++ statusLabel status ++
        " - " ++ l.msg := by
  intro rec hrec
  unfold RequestLoggerEntry.Write at hrec
  rcases hsl : statusLevel status <;> rw [hsl] at hrec <;>
    simp [h] at hrec <;> simp [hrec]

/-- C2: an end record classified at info severity is suppressed entirely —
`Write` emits nothing — and every record `Write` does emit carries warn or
error severity. -/
theorem Write_info_suppression (l : RequestLoggerEntry) (skips : List String)
    (concise : Bool) (status : Int) (bytes : Nat) (header : Header)
    (elapsedNs : Nat) (extra : Option String) :
    (statusLevel status = .info →
      l.Write skips concise status bytes header elapsedNs extra = []) ∧
    (∀ rec ∈ l.Write skips concise status bytes header elapsedNs extra,
      rec.level = .warn ∨ rec.level = .error) := by
  constructor
  · intro h
    unfold RequestLoggerEntry.Write
    rw [h]
  · intro rec hrec
    unfold RequestLoggerEntry.Write at hrec
    rcases statusLevel_cases status with h | h | h <;> rw [h] at hrec <;>
      simp at hrec <;> simp [hrec]

/-- Witness for C2: a 200-status finalization with info severity emits
nothing. -/
theorem Write_info_suppression_witness :
    RequestLoggerEntry.Write ⟨[], ""⟩ [] true 200 11 [] 0 none = [] :=
  (Write_info_suppression ⟨[], ""⟩ [] true 200 11 [] 0 none).1 (by decide)

/-- C9: the context lookup never fails: a context holding a typed non-nil
entry yields that entry's logging handle; any other context — value absent,
value of another type, or nil entry — yields the process-wide default
handle. -/
theorem LogEntry_total_spec (ctxVal : Option ContextValue) :
    (∀ e : RequestLoggerEntry, ctxVal = some (.loggerEntry (some e)) →
      LogEntry ctxVal = .entryLogger e.Logger) ∧
    ((∀ e : RequestLoggerEntry, ctxVal ≠ some (.loggerEntry (some e))) →
      LogEntry ctxVal = .defaultLogger) := by
  constructor
  · intro e he
    rw [he]
    rfl
  · intro hne
    rcases ctxVal with _ | cv
    · rfl
    rcases cv with e | _
    · rcases e with _ | e
      · rfl
      · exact absurd rfl (hne e)
    · rfl

/-- Witness for C9: a context carrying an entry returns its logger. -/
theorem LogEntry_total_spec_witness :
    LogEntry (some (.loggerEntry (some ⟨[("k", .str "v")], ""⟩))) =
      .entryLogger [("k", .str "v")] :=
  (LogEntry_total_spec (some (.loggerEntry (some ⟨[("k", .str "v")], ""⟩)))).1
    ⟨[("k", .str "v")], ""⟩ rfl

/-- Skip-list membership (Go map lookup) is exact string equality. -/
theorem contains_iff_mem (l : List String) (a : String) :
    l.contains a = true ↔ a ∈ l := by
  simp [List.contains]

/-- C6: skip-list membership is exact string equality on the path, and a
request to a skipped path creates no entry, wraps nothing, puts nothing in
the context, emits zero records, runs no finalization, and hands the
exchange directly to the downstream handler. -/
theorem handlerRun_skip_spec (skipHeaders : List String) (concise : Bool)
    (base : LoggerModel) (skipPaths : List String) (r : Request)
    (down : Downstream) (elapsedNs : Nat) :
    (skipPaths.contains r.path = true ↔ r.path ∈ skipPaths) ∧
    (r.path ∈ skipPaths →
      handlerRun skipHeaders concise base skipPaths r down elapsedNs =
        { startRecords := [], endRecords := [], entryCreated := false,
          wrapped := false, entryInContext := false, writeCalls := 0,
          panicCalls := 0, stderrDump := false, downstreamCalled := true,
          finalEntry := none }) := by
  refine ⟨contains_iff_mem skipPaths r.path, fun hmem => ?_⟩
  unfold handlerRun
  rw [if_pos ((contains_iff_mem skipPaths r.path).2 hmem)]

/-- Witness for C6: a request to "/ping" with skip list ["/ping"]. -/
theorem handlerRun_skip_spec_witness :
    handlerRun [] false [] ["/ping"] (sampleReq "/ping")
      (sampleDown (some 200) 2 none) 0 =
      { startRecords := [], endRecords := [], entryCreated := false,
        wrapped := false, entryInContext := false, writeCalls := 0,
        panicCalls := 0, stderrDump := false, downstreamCalled := true,
        finalEntry := none } :=
  (handlerRun_skip_spec [] false [] ["/ping"] (sampleReq "/ping")
    (sampleDown (some 200) 2 none) 0).2 (by decide)

/-- C1 (amended): on every non-skipped request the deferred `Write`
finalization runs exactly once, on every exit path including panic unwind;
the panic hook runs exactly when the downstream handler panicked — so on
the panic path both finalizations run, not one — and at most one end
record is emitted. -/
theorem handlerRun_finalization_amended (skipHeaders : List String)
    (concise : Bool) (base : LoggerModel) (skipPaths : List String)
    (r : Request) (down : Downstream) (elapsedNs : Nat)
    (h : r.path ∉ skipPaths) :
    (handlerRun skipHeaders concise base skipPaths r down elapsedNs).writeCalls = 1 ∧
    (handlerRun skipHeaders concise base skipPaths r down elapsedNs).panicCalls =
      (if down.panics.isSome then 1 else 0) ∧
    (handlerRun skipHeaders concise base skipPaths r down elapsedNs).endRecords.length ≤ 1 := by
  have hc : ¬(skipPaths.contains r.path = true) := by
    rw [contains_iff_mem]
    exact h
  unfold handlerRun
  rw [if_neg hc]
  exact ⟨rfl, rfl, Write_length_le_one _ _ _ _ _ _ _ _⟩

/-- Witness for C1 (amended) on a normal (non-panicking) request. -/
theorem handlerRun_finalization_amended_witness :
    (handlerRun [] true [] [] (sampleReq "/")
      (sampleDown (some 200) 2 none) 0).writeCalls = 1 ∧
    (handlerRun [] true [] [] (sampleReq "/")
      (sampleDown (some 200) 2 none) 0).panicCalls = 0 :=
  have H := handlerRun_finalization_amended [] true [] [] (sampleReq "/")
    (sampleDown (some 200) 2 none) 0 (by decide)
  ⟨H.1, H.2.1.trans (by decide)⟩

/-- Counterexample for C1 as stated: on a panicking request BOTH the panic
hook and the deferred `Write` finalization run — not exactly one of them. -/
theorem handlerRun_finalization_counterexample :
    (handlerRun [] true [] [] (sampleReq "/panic")
      (sampleDown none 0 (some "oh no")) 0).writeCalls = 1 ∧
    (handlerRun [] true [] [] (sampleReq "/panic")
      (sampleDown none 0 (some "oh no")) 0).panicCalls = 1 := by
  exact ⟨rfl, rfl⟩

/-- In concise mode the end record's response field set never carries a
body snippet or a header mapping, whatever the status. -/
theorem Write_concise_response (l : RequestLoggerEntry) (skips : List String)
    (status : Int) (bytes : Nat) (header : Header) (elapsedNs : Nat)
    (extra : Option String) :
    ∀ rec ∈ l.Write skips true status bytes header elapsedNs extra,
      ∀ rl, rec.httpResponse = some rl → rl.body = none ∧ rl.header = none := by
  intro rec hrec rl hrl
  unfold RequestLoggerEntry.Write at hrec
  rcases statusLevel_cases status with h | h | h <;> rw [h] at hrec <;>
    simp at hrec <;> rw [hrec] at hrl <;> simp at hrl <;>
    rw [← hrl] <;> exact ⟨rfl, rfl⟩

/-- C7: with the concise option set, no start record is emitted at entry
creation, and every emitted finalization record — whatever the final
status, including status ≥ 400 — carries neither the body snippet nor the
header mapping in its response field set. -/
theorem handlerRun_concise_spec (skipHeaders : List String)
    (base : LoggerModel) (skipPaths : List String) (r : Request)
    (down : Downstream) (elapsedNs : Nat) :
    (handlerRun skipHeaders true base skipPaths r down elapsedNs).startRecords = [] ∧
    ∀ rec ∈ (handlerRun skipHeaders true base skipPaths r down elapsedNs).endRecords,
      ∀ rl, rec.httpResponse = some rl → rl.body = none ∧ rl.header = none := by
  by_cases hc : skipPaths.contains r.path = true
  · unfold handlerRun
    rw [if_pos hc]
    exact ⟨rfl, fun rec hrec => by simp at hrec⟩
  · unfold handlerRun
    rw [if_neg hc]
    constructor
    · show (NewLogEntry skipHeaders true base r).2 = []
      unfold NewLogEntry
      simp
    · intro rec hrec
      exact Write_concise_response _ _ _ _ _ _ _ rec hrec

/-- Witness for C7: a concise-mode 500 finalization emits one record whose
response field set has no body and no header entry. -/
theorem handlerRun_concise_spec_witness :
    ({ status := 500, bytes := 3, elapsedNs := 7, body := none,
       header := none } : ResponseLog).body = none ∧
    ({ status := 500, bytes := 3, elapsedNs := 7, body := none,
       header := none } : ResponseLog).header = none :=
  (handlerRun_concise_spec [] [] [] (sampleReq "/err")
    (sampleDown (some 500) 3 none) 7).2
    { level := .error, msg := "Response: 500 Server Error",
      fields := [("httpRequest",
        .nested (requestLogFields [] (sampleReq "/err") true))],
      httpResponse := some { status := 500, bytes := 3, elapsedNs := 7,
                             body := none, header := none } }
    (List.Mem.head _)
    { status := 500, bytes := 3, elapsedNs := 7, body := none,
      header := none } rfl

/-- C8 (amended): when the downstream handler panics with a value whose
formatted representation `v` is non-empty, the panic hook adds the
`stacktrace` field (raw trace text) and the `panic` field (the formatted
value) to the entry's accumulated field set, sets the entry's short
message to `v`, and the stack trace is dumped to the process's standard
error stream; the subsequently-run deferred normal finalization emits its
record — exactly one, unless suppressed by the info rule — and every
record it emits has message "Response: <status> <label> - <v>". (When `v`
is empty the suffix is omitted; see the counterexample.) -/
theorem handlerRun_panic_spec (skipHeaders : List String) (concise : Bool)
    (base : LoggerModel) (skipPaths : List String) (r : Request)
    (down : Downstream) (elapsedNs : Nat) (v : String)
    (hskip : r.path ∉ skipPaths) (hpanic : down.panics = some v)
    (hv : v ≠ "") :
    (∃ e, (handlerRun skipHeaders concise base skipPaths r down elapsedNs).finalEntry = some e ∧
      ("stacktrace", LogValue.str down.stack) ∈ e.Logger ∧
      ("panic", LogValue.str v) ∈ e.Logger ∧ e.msg = v) ∧
    (handlerRun skipHeaders concise base skipPaths r down elapsedNs).stderrDump = true ∧
    (∀ rec ∈ (handlerRun skipHeaders concise base skipPaths r down elapsedNs).endRecords,
      rec.msg = "Response: " ++ toString (finalStatus down) ++ " " ++
        statusLabel (finalStatus down) ++ " - " ++ v) ∧
    (statusLevel (finalStatus down) ≠ .info →
      (handlerRun skipHeaders concise base skipPaths r down elapsedNs).endRecords.length = 1) := by
  have hc : ¬(skipPaths.contains r.path = true) := by
    rw [contains_iff_mem]
    exact hskip
  unfold handlerRun
  rw [if_neg hc, hpanic]
  refine ⟨⟨(NewLogEntry skipHeaders concise base r).1.Panic v down.stack,
    rfl, ?_, ?_, rfl⟩, by simp, ?_, ?_⟩
  · simp [RequestLoggerEntry.Panic]
  · simp [RequestLoggerEntry.Panic]
  · intro rec hrec
    exact Write_msg_of_msg_ne _ _ _ _ _ _ _ _ hv rec hrec
  · intro hni
    exact Write_length_of_not_info _ _ _ _ _ _ _ _ hni

/-- Witness for C8 (amended): a panic with value "oh no" dumps the stack
and yields exactly one end record. -/
theorem handlerRun_panic_spec_witness :
    (handlerRun [] true [] [] (sampleReq "/panic")
      (sampleDown none 0 (some "oh no")) 0).stderrDump = true ∧
    (handlerRun [] true [] [] (sampleReq "/panic")
      (sampleDown none 0 (some "oh no")) 0).endRecords.length = 1 :=
  have H := handlerRun_panic_spec [] true [] [] (sampleReq "/panic")
    (sampleDown none 0 (some "oh no")) 0 "oh no" (by decide) rfl (by decide)
  ⟨H.2.1, H.2.2.2 (by decide)⟩

/-- Counterexample for C8 as stated: a panic whose formatted value is the
empty string. The claim's message template gives
"Response: 500 Server Error - ", but `Write` only appends the
" - <msg>" suffix when the stored short message is non-empty, so the
emitted record's message is "Response: 500 Server Error". -/
theorem handlerRun_panic_counterexample :
    (handlerRun [] true [] [] (sampleReq "/panic")
      (sampleDown none 0 (some "")) 0).endRecords.map LogRecord.msg =
      ["Response: 500 Server Error"] ∧
    ("Response: 500 Server Error" : String) ≠
      "Response: 500 Server Error - " := by
  exact ⟨rfl, by decide⟩

/-- C10: `Configure` lower-cases each element of the caller's `SkipHeaders`
slice in place — the write is visible through the shared backing array —
and touches no other slice; the installed process-wide options alias that
same slice (same reference) and keep `Concise` and `Tags` unchanged, while
the four string fields are stored with empty values defaulted. -/
theorem Configure_frame_spec (store : SliceStore) (opts : OptionsR)
    (_h : store opts.SkipHeaders ≠ []) :
    ((Configure store opts).1 opts.SkipHeaders =
      (store opts.SkipHeaders).map lowerStr) ∧
    (∀ i, i ≠ opts.SkipHeaders → (Configure store opts).1 i = store i) ∧
    ((Configure store opts).2.1.SkipHeaders = opts.SkipHeaders) ∧
    ((Configure store opts).2.1.Concise = opts.Concise) ∧
    ((Configure store opts).2.1.Tags = opts.Tags) ∧
    ((Configure store opts).2.1.LogLevel =
      if opts.LogLevel = "" then "info" else opts.LogLevel) ∧
    ((Configure store opts).2.1.LevelFieldName =
      if opts.LevelFieldName = "" then "level" else opts.LevelFieldName) ∧
    ((Configure store opts).2.1.TimeFieldFormat =
      if opts.TimeFieldFormat = "" then rfc3339Nano else opts.TimeFieldFormat) ∧
    ((Configure store opts).2.1.TimeFieldName =
      if opts.TimeFieldName = "" then "timestamp" else opts.TimeFieldName) := by
  unfold Configure
  split_ifs <;> simp_all

/-- Witness for C10: a caller slice ["X-Api-Key"] is lower-cased in place
and aliased by the installed options. -/
theorem Configure_frame_spec_witness :
    ((Configure (fun i => if i = 0 then ["X-Api-Key"] else [])
      { LogLevel := "", LevelFieldName := "", Concise := true, Tags := [],
        SkipHeaders := 0, TimeFieldFormat := "", TimeFieldName := "" }).1 0 =
      ["x-api-key"]) ∧
    ((Configure (fun i => if i = 0 then ["X-Api-Key"] else [])
      { LogLevel := "", LevelFieldName := "", Concise := true, Tags := [],
        SkipHeaders := 0, TimeFieldFormat := "", TimeFieldName := "" }).2.1.SkipHeaders = 0) :=
  have H := Configure_frame_spec (fun i => if i = 0 then ["X-Api-Key"] else [])
    { LogLevel := "", LevelFieldName := "", Concise := true, Tags := [],
      SkipHeaders := 0, TimeFieldFormat := "", TimeFieldName := "" }
    (by decide)
  ⟨H.1.trans (by decide), H.2.2.1⟩

end Httpslog
